import Mathlib

/-!
Verification of the "fresh-air-decomp" audio-processing core.

The Python sources (gain.py, compressor.py, filter.py, test.py) are embedded
shallowly over exact rationals (`ℚ`): Python float arithmetic is modelled as
exact arithmetic, decimal literals are read as exact decimal rationals, and
hex-decoded IEEE-754 constants are written as the exact rational value of the
decoded float.  The transcendental library calls (`math.exp`, `math.pow`,
`math.sqrt`) do not stay inside `ℚ`; they are abstracted as explicit function
parameters (`powf`, `sqrtf`) and, for the one-pole coefficients
`1 - exp(-1/(t·sr))`, as a record of coefficient values passed to the
processing functions.  A Python `ZeroDivisionError` is modelled by returning
`Option.none`.
-/

namespace FreshAir

/-- Persistent state of `StereoGainMeter` (gain.py), the spec's
`RampedGainStage`.  Field names follow the Python attributes. -/
structure GainState where
  initialized : Bool
  storedTargetGain : ℚ
  startGain : ℚ
  currentGain : ℚ
  rampStep : ℚ
  meterCoeffL : ℚ
  meterCoeffR : ℚ
  meterStateL : ℚ
  meterStateR : ℚ
  deriving DecidableEq

/-- State produced by `StereoGainMeter.__init__` with the default metering
coefficients. -/
def gainInit : GainState :=
  { initialized := false
    storedTargetGain := 0
    startGain := 0
    currentGain := 0
    rampStep := 0
    meterCoeffL := 0.1
    meterCoeffR := 0.1
    meterStateL := 0
    meterStateR := 0 }

/-- Target-gain resolution at the top of `StereoGainMeter.process_block`:
`config_val_boost * 2.0` in mode 1, else `config_val_normal`. -/
def resolveTarget (configMode : ℤ) (valNormal valBoost : ℚ) : ℚ :=
  if configMode = 1 then valBoost * 2 else valNormal

/-- Per-block ramp setup of `StereoGainMeter.process_block` (the code before
the sample loop).  Returns `none` exactly where Python raises
`ZeroDivisionError`: an initialized stage, a target change of at least
`1e-15`, and `block_size = 0` in `1.0 / float(block_size)`. -/
def gainSetup (s : GainState) (target : ℚ) (blockSize : ℕ) : Option GainState :=
  if s.initialized = false then
    some { s with
      initialized := true
      startGain := target
      storedTargetGain := target
      rampStep := 0
      currentGain := target }
  else if |target - s.storedTargetGain| ≥ 1e-15 then
    if blockSize = 0 then none
    else some { s with
      rampStep := 1 / (blockSize : ℚ)
      startGain := s.storedTargetGain
      storedTargetGain := target }
  else
    some { s with
      rampStep := 0
      startGain := target
      storedTargetGain := target }

/-- The sample loop of `StereoGainMeter.process_block`.  Runs over the zipped
left/right samples (all theorems assume equal-length blocks, matching the
caller contract; Python would raise on a shorter right block).  `counter` is
`ramp_counter` before the current iteration's `+= 1.0`; the carried triple is
(`_current_gain`, `_meter_state_l`, `_meter_state_r`).  Returns the two output
lists and the final carried triple. -/
def gainLoop (rampStep startGain target mcl mcr : ℚ) :
    List (ℚ × ℚ) → ℕ → ℚ × ℚ × ℚ → List ℚ × List ℚ × (ℚ × ℚ × ℚ)
  | [], _, acc => ([], [], acc)
  | (l, r) :: rest, counter, (_, mL, mR) =>
    let t : ℚ := ((counter : ℚ) + 1) * rampStep
    let g : ℚ := if rampStep > 0 then (1 - t) * startGain + t * target else target
    let outL := l * g
    let mL' := (outL * outL - mL) * mcl + mL
    let outR := r * g
    let mR' := (outR * outR - mR) * mcr + mR
    let res := gainLoop rampStep startGain target mcl mcr rest (counter + 1) (g, mL', mR')
    (outL :: res.1, outR :: res.2.1, res.2.2)

/-- Embedding of `StereoGainMeter.process_block` (gain.py, also copied in test.py):
resolve the target, run the ramp setup, run the sample loop, and store the
loop's final current gain and meter states. -/
def gainProcess (s : GainState) (left right : List ℚ)
    (configMode : ℤ) (valNormal valBoost : ℚ) :
    Option (GainState × List ℚ × List ℚ) :=
  let target := resolveTarget configMode valNormal valBoost
  match gainSetup s target left.length with
  | none => none
  | some s1 =>
    let res := gainLoop s1.rampStep s1.startGain target s1.meterCoeffL s1.meterCoeffR
      (left.zip right) 0 (s1.currentGain, s1.meterStateL, s1.meterStateR)
    some ({ s1 with
      currentGain := res.2.2.1
      meterStateL := res.2.2.2.1
      meterStateR := res.2.2.2.2 }, res.1, res.2.1)

/-- Denormal/zero guard constant of `UnknownCompressor` (compressor.py:
`self.EPSILON = 9.536743e-07`). -/
def EPSILON : ℚ := 9.536743e-7

/-- Persistent state and knob parameters of `UnknownCompressor`
(compressor.py / test.py), the spec's `DynamicsUnit`.  `mode` is the raw
integer knob (0 = RMS; anything else, canonically 2, takes the Peak branch).
The time-constant knobs `attack_time` etc. only enter `process_block` through
`_calc_coeff`, which is abstracted into `CompCoeffs` below. -/
structure CompState where
  mode : ℤ
  threshold : ℚ
  ratio : ℚ
  rmsState : ℚ
  peakState : ℚ
  gainState : ℚ
  deriving DecidableEq

/-- The four one-pole coefficients computed at the top of
`UnknownCompressor.process_block` via `_calc_coeff(t) = 1 - exp(-1/(t·sr))`
(a transcendental, abstracted here as explicit values; for every positive
time constant and sample rate the true value lies in the open interval
(0,1), and `_calc_coeff` returns 1 for `t ≤ 0`). -/
structure CompCoeffs where
  attack : ℚ
  release : ℚ
  rms : ℚ
  gainSmooth : ℚ
  deriving DecidableEq

/-- State of `UnknownCompressor.__init__` with a given mode/threshold/ratio
(the sample-rate and time knobs live in `CompCoeffs`). -/
def compInit (mode : ℤ) (threshold ratio : ℚ) : CompState :=
  { mode := mode
    threshold := threshold
    ratio := ratio
    rmsState := 0
    peakState := 0
    gainState := 1 }

/-- Slope computed per block in `process_block`:
`1.0 - (1.0 / self.ratio) if self.ratio > 1.0 else 0.0`. -/
def slopeOf (ratio : ℚ) : ℚ :=
  if ratio > 1 then 1 - 1 / ratio else 0

/-- The Peak-mode instantaneous level of the `process_block` detector: the
larger of the two absolute samples (`abs_l if abs_l > abs_r else abs_r`). -/
def peakLevel (l r : ℚ) : ℚ :=
  let absL := |l|
  let absR := |r|
  if absL > absR then absL else absR

/-- Detector stage of the `process_block` sample loop: returns the updated
state and the envelope `current_env`.  RMS branch (`mode == 0`): mean power
of the two samples, floored at `EPSILON`, one-pole smoothed into
`rms_state`, envelope is `sqrt(max(0, rms_state))` (`sqrtf` abstracts
`math.sqrt`).  Peak branch: larger absolute sample, smoothed into
`peak_state` with the attack coefficient when rising, else release. -/
def detector (cc : CompCoeffs) (sqrtf : ℚ → ℚ) (s : CompState) (l r : ℚ) :
    CompState × ℚ :=
  if s.mode = 0 then
    let power := (l * l + r * r) * 0.5
    let power := if power ≤ EPSILON then EPSILON else power
    let rms' := s.rmsState + (power - s.rmsState) * cc.rms
    ({ s with rmsState := rms' }, sqrtf (max 0 rms'))
  else
    let level := peakLevel l r
    let coeff := if level > s.peakState then cc.attack else cc.release
    let peak' := s.peakState + (level - s.peakState) * coeff
    ({ s with peakState := peak' }, peak')

/-- Gain-computer stage of the `process_block` sample loop: target linear
gain is 1.0 unless `threshold < current_env`, in which case it is
`pow(threshold / max(env, EPSILON), slope)` (`powf` abstracts `math.pow`). -/
def targetGainLinear (powf : ℚ → ℚ → ℚ) (threshold slope env : ℚ) : ℚ :=
  if threshold < env then
    let safeEnv := if env > EPSILON then env else EPSILON
    powf (threshold / safeEnv) slope
  else 1

/-- One iteration of the `UnknownCompressor.process_block` loop: detector,
gain computer, ballistics (one-pole smoothing of the target gain into
`gain_state` with the 5 ms coefficient), and gain application to both
channels. -/
def compStep (cc : CompCoeffs) (powf : ℚ → ℚ → ℚ) (sqrtf : ℚ → ℚ)
    (slope : ℚ) (s : CompState) (l r : ℚ) : CompState × ℚ × ℚ :=
  let d := detector cc sqrtf s l r
  let tg := targetGainLinear powf s.threshold slope d.2
  let gain' := d.1.gainState + (tg - d.1.gainState) * cc.gainSmooth
  ({ d.1 with gainState := gain' }, l * gain', r * gain')

/-- Iteration (n-fold) of the per-sample compressor step on the state, with
a constant stereo input `(l, r)` — the state evolution of `process_block`
on a constant (step) input. -/
def compStateIter (cc : CompCoeffs) (powf : ℚ → ℚ → ℚ) (sqrtf : ℚ → ℚ)
    (slope l r : ℚ) (n : ℕ) (s : CompState) : CompState :=
  (fun st => (compStep cc powf sqrtf slope st l r).1)^[n] s

/-- The `process_block` loop over the zipped stereo samples. -/
def compRun (cc : CompCoeffs) (powf : ℚ → ℚ → ℚ) (sqrtf : ℚ → ℚ)
    (slope : ℚ) (s : CompState) : List (ℚ × ℚ) → CompState × List ℚ × List ℚ
  | [] => (s, [], [])
  | (l, r) :: rest =>
    let st := compStep cc powf sqrtf slope s l r
    let res := compRun cc powf sqrtf slope st.1 rest
    (res.1, st.2.1 :: res.2.1, st.2.2 :: res.2.2)

/-- Embedding of `UnknownCompressor.process_block`: derive the slope from the ratio once
per block and run the sample loop (the four time-constant coefficients,
recomputed per block from fixed knobs in Python, are the abstract
`CompCoeffs`). -/
def compProcess (cc : CompCoeffs) (powf : ℚ → ℚ → ℚ) (sqrtf : ℚ → ℚ)
    (s : CompState) (left right : List ℚ) : CompState × List ℚ × List ℚ :=
  compRun cc powf sqrtf (slopeOf s.ratio) s (left.zip right)

/-- Persistent state of the test.py `UnknownFilter`, the spec's `ZDFFilter`:
the five loaded coefficients and the four integrator states. -/
structure FiltState where
  c0 : ℚ
  c1 : ℚ
  c2 : ℚ
  c3 : ℚ
  c4 : ℚ
  s0 : ℚ
  s1 : ℚ
  s2 : ℚ
  s3 : ℚ
  deriving DecidableEq

/-- State of `UnknownFilter` with coefficients loaded by `set_params` and fresh
(zero) integrator state. -/
def filtInit (c0 c1 c2 c3 c4 : ℚ) : FiltState :=
  { c0 := c0, c1 := c1, c2 := c2, c3 := c3, c4 := c4
    s0 := 0, s1 := 0, s2 := 0, s3 := 0 }

/-- The per-sample denominator `denom = mix * c0 + 1.0` with
`mix = c1 * 2.0 + c0` (test.py `UnknownFilter.process`). -/
def filtDenom (c0 c1 : ℚ) : ℚ := (c1 * 2 + c0) * c0 + 1

/-- The guarded reciprocal of test.py `UnknownFilter.process`:
`inv = 1.0 / denom if abs(denom) > 1e-20 else 0.0`. -/
def filtInv (c0 c1 : ℚ) : ℚ :=
  if |filtDenom c0 c1| > 1e-20 then 1 / filtDenom c0 c1 else 0

/-- One iteration of the test.py `UnknownFilter.process` loop (the
per-sample coefficient deltas `dc0..dc4` are the literal constants 0.0 and
the coefficients are stored back unchanged, so the coefficient fields are
carried through unmodified). -/
def filtStep (f : FiltState) (l r : ℚ) : FiltState × ℚ × ℚ :=
  let twoC0 := f.c0 * 2
  let twoC1 := f.c1 * 2
  let mix := twoC1 + f.c0
  let inv := filtInv f.c0 f.c1
  let accL := l * f.c0 + f.s0
  let accR := r * f.c0 + f.s1
  let hpL := l - (mix * accL + f.s2) * inv
  let hpR := r - (mix * accR + f.s3) * inv
  let s2t := (accL - f.s2 * f.c0) * inv * f.c0 + f.s2
  let s3t := (accR - f.s3 * f.c0) * inv * f.c0 + f.s3
  let bpL := hpL * f.c0 + f.s0
  let bpR := hpR * f.c0 + f.s1
  let outL := f.c3 * bpL + f.c4 * s2t + f.c2 * hpL
  let outR := f.c3 * bpR + f.c4 * s3t + f.c2 * hpR
  ({ f with
    s0 := ((l - twoC1 * bpL) - s2t) * twoC0 + f.s0
    s1 := ((r - twoC1 * bpR) - s3t) * twoC0 + f.s1
    s2 := bpL * twoC0 + f.s2
    s3 := bpR * twoC0 + f.s3 }, outL, outR)

/-- The `UnknownFilter.process` loop over the zipped stereo samples. -/
def filtRun (f : FiltState) : List (ℚ × ℚ) → FiltState × List ℚ × List ℚ
  | [] => (f, [], [])
  | (l, r) :: rest =>
    let st := filtStep f l r
    let res := filtRun st.1 rest
    (res.1, st.2.1 :: res.2.1, st.2.2 :: res.2.2)

/-- test.py `UnknownFilter.process` on a stereo block. -/
def filtProcess (f : FiltState) (left right : List ℚ) :
    FiltState × List ℚ × List ℚ :=
  filtRun f (left.zip right)

/-- Embedding of `lerp(a, b, t) = a + t * (b - a)` (test.py). -/
def lerp (a b t : ℚ) : ℚ := a + t * (b - a)

/-- The segment scan of `interpolate_curve` (test.py): walk consecutive key
pairs of the sorted table; on the first segment with `k1 ≤ knob ≤ k2` return
the lerp of its values; the Python fallthrough returns 0.0. -/
def interpSegments (knob : ℚ) : List (ℚ × ℚ) → ℚ
  | (k1, v1) :: (k2, v2) :: rest =>
    if k1 ≤ knob ∧ knob ≤ k2 then lerp v1 v2 ((knob - k1) / (k2 - k1))
    else interpSegments knob ((k2, v2) :: rest)
  | _ => 0

/-- Embedding of `interpolate_curve` (test.py) over a table already sorted by key: clamp
below the first key and above the last key, otherwise scan the segments. -/
def interpolateCurve (points : List (ℚ × ℚ)) (knob : ℚ) : ℚ :=
  match points with
  | [] => 0
  | (k0, v0) :: rest =>
    if knob ≤ k0 then v0
    else
      let last := ((k0, v0) :: rest).getLast (by simp)
      if knob ≥ last.1 then last.2
      else interpSegments knob ((k0, v0) :: rest)

/-- Table `MID_FILTER_COEFFS` (test.py): exact values of the five little-endian
doubles P0..P4 decoded by `hex_to_double` (P3 = P4 = 0). -/
def MID_FILTER_COEFFS : List ℚ :=
  [7819259860167771 / 36028797018963968,
   7142661272958649 / 9007199254740992,
   9007199254740991 / 9007199254740992,
   0, 0]

/-- Table `HIGH_FILTER_COEFFS` (test.py): exact decoded values. -/
def HIGH_FILTER_COEFFS : List ℚ :=
  [6722244583606709 / 9007199254740992,
   398125841409297 / 562949953421312,
   1, 0, 0]

/-- Table `MID_GAIN_CURVE` (test.py): exact values of the big-endian doubles. -/
def MID_GAIN_CURVE : List (ℚ × ℚ) :=
  [(0, 1485145194824359 / 2251799813685248),
   (0.25, 4653993267281851 / 4503599627370496),
   (0.5, 2961427729020933 / 2251799813685248),
   (0.75, 3607173915693685 / 2251799813685248),
   (1, 2144814593956859 / 1125899906842624)]

/-- Table `HIGH_LIMITER_THRESH_CURVE` (test.py): exact values of the decoded
little-endian single floats. -/
def HIGH_LIMITER_THRESH_CURVE : List (ℚ × ℚ) :=
  [(0, 8405405 / 16777216),
   (0.25, 9796655 / 33554432),
   (0.5, 7331193 / 33554432),
   (0.75, 5783157 / 33554432),
   (1, 9390903 / 67108864)]

/-- Table `HIGH_LIMITER_SHAPE_CURVE` (test.py): exact decoded values. -/
def HIGH_LIMITER_SHAPE_CURVE : List (ℚ × ℚ) :=
  [(0, 12399377 / 16777216),
   (0.25, 10688751 / 16777216),
   (0.5, 4885179 / 8388608),
   (0.75, 563685 / 1048576),
   (1, 8358903 / 16777216)]

/-- The composite `FreshAirClone` (test.py): component instances plus the
three knob scalars. -/
structure Clone where
  midFilter : FiltState
  midComp : CompState
  highFilter : FiltState
  highGate : CompState
  highGain : GainState
  highLimiter : CompState
  trimGain : GainState
  staticPad : GainState
  knobMid : ℚ
  knobHigh : ℚ
  knobTrim : ℚ
  deriving DecidableEq

/-- State of `FreshAirClone.__init__`: mid filter loaded with `MID_FILTER_COEFFS`,
mid compressor in RMS mode with threshold 0.0316 and ratio 2.0, high filter
loaded with `HIGH_FILTER_COEFFS`, high gate with threshold 0.0 (and the
`UnknownCompressor` defaults mode = 2, ratio = 4.0), high limiter in Peak
mode with default threshold 1.0 and ratio 4.0, three fresh gain stages, and
knobs at 0. -/
def cloneInit : Clone :=
  { midFilter := filtInit (MID_FILTER_COEFFS.getD 0 0) (MID_FILTER_COEFFS.getD 1 0)
      (MID_FILTER_COEFFS.getD 2 0) (MID_FILTER_COEFFS.getD 3 0) (MID_FILTER_COEFFS.getD 4 0)
    midComp := compInit 0 0.0316 2
    highFilter := filtInit (HIGH_FILTER_COEFFS.getD 0 0) (HIGH_FILTER_COEFFS.getD 1 0)
      (HIGH_FILTER_COEFFS.getD 2 0) (HIGH_FILTER_COEFFS.getD 3 0) (HIGH_FILTER_COEFFS.getD 4 0)
    highGate := compInit 2 0 4
    highGain := gainInit
    highLimiter := compInit 2 1 4
    trimGain := gainInit
    staticPad := gainInit
    knobMid := 0
    knobHigh := 0
    knobTrim := 0 }

/-- Embedding of `FreshAirClone.set_parameters`: store the three knobs and recompute the
high limiter's threshold and ratio from the two curves
(`ratio = 1/(1-slope)` when `slope < 1.0`, else `20.0`). -/
def setParameters (c : Clone) (midAir highAir trimDb : ℚ) : Clone :=
  let slope := interpolateCurve HIGH_LIMITER_SHAPE_CURVE highAir
  let ratio := if slope < 1 then 1 / (1 - slope) else 20
  { c with
    knobMid := midAir
    knobHigh := highAir
    knobTrim := trimDb
    highLimiter := { c.highLimiter with
      threshold := interpolateCurve HIGH_LIMITER_THRESH_CURVE highAir
      ratio := ratio } }

/-- Mid lane of `FreshAirClone.process`: filter, multiply both channels by
the drive `interpolate_curve(knob_mid, MID_GAIN_CURVE) - 0.05`, then the mid
compressor. -/
def midLane (cc : CompCoeffs) (powf : ℚ → ℚ → ℚ) (sqrtf : ℚ → ℚ)
    (c : Clone) (left right : List ℚ) :
    FiltState × CompState × List ℚ × List ℚ :=
  let filt := filtProcess c.midFilter left right
  let midDrive := interpolateCurve MID_GAIN_CURVE c.knobMid - 0.05
  let drvL := filt.2.1.map fun s => s * midDrive
  let drvR := filt.2.2.map fun s => s * midDrive
  let comp := compProcess cc powf sqrtf c.midComp drvL drvR
  (filt.1, comp.1, comp.2)

/-- High lane of `FreshAirClone.process`: filter, gate, ramped boost gain
(`1.0 + 0.8962 * pow(knob_high, 0.8)`, mode 0), then the limiter.  `none`
exactly where the gain stage raises. -/
def highLane (cc : CompCoeffs) (powf : ℚ → ℚ → ℚ) (sqrtf : ℚ → ℚ)
    (c : Clone) (left right : List ℚ) :
    Option (FiltState × CompState × GainState × CompState × List ℚ × List ℚ) :=
  let filt := filtProcess c.highFilter left right
  let gate := compProcess cc powf sqrtf c.highGate filt.2.1 filt.2.2
  let highBoost := 1 + 0.8962 * powf c.knobHigh 0.8
  match gainProcess c.highGain gate.2.1 gate.2.2 0 highBoost 0 with
  | none => none
  | some g =>
    let lim := compProcess cc powf sqrtf c.highLimiter g.2.1 g.2.2
    some (filt.1, gate.1, g.1, lim.1, lim.2)

/-- Embedding of `FreshAirClone.process`: run both lanes, sum `dry + mid + high`
sample-wise per channel, then the output-trim gain stage
(target `pow(10, knob_trim / 20.0)`) and the fixed static pad (0.822) in
series.  `none` wherever a gain stage raises. -/
def cloneProcess (cc : CompCoeffs) (powf : ℚ → ℚ → ℚ) (sqrtf : ℚ → ℚ)
    (c : Clone) (left right : List ℚ) :
    Option (Clone × List ℚ × List ℚ) :=
  let mid := midLane cc powf sqrtf c left right
  match highLane cc powf sqrtf c left right with
  | none => none
  | some high =>
    let sumL := List.zipWith (· + ·) (List.zipWith (· + ·) left mid.2.2.1) high.2.2.2.2.1
    let sumR := List.zipWith (· + ·) (List.zipWith (· + ·) right mid.2.2.2) high.2.2.2.2.2
    let trimLin := powf 10 (c.knobTrim / 20)
    match gainProcess c.trimGain sumL sumR 0 trimLin 0 with
    | none => none
    | some trim =>
      match gainProcess c.staticPad trim.2.1 trim.2.2 0 0.822 0 with
      | none => none
      | some pad =>
        some ({ c with
          midFilter := mid.1
          midComp := mid.2.1
          highFilter := high.1
          highGate := high.2.1
          highGain := high.2.2.1
          highLimiter := high.2.2.2.1
          trimGain := trim.1
          staticPad := pad.1 }, pad.2)

/-- Concrete one-pole coefficient values (all 1/2) standing in for
`1 - exp(-1/(t·sr))` in concrete evaluations. -/
def probeCoeffs : CompCoeffs := ⟨0.5, 0.5, 0.5, 0.5⟩

/-- A concrete stand-in for `math.pow` used in concrete evaluations,
agreeing with it at the points the evaluations touch:
`pow(b, 0) = 1`, `pow(0, e) = 0` for `e ≠ 0`, and a value distinct from 1
elsewhere (mirroring `pow(10, 1/20) ≈ 1.122`). -/
def probePow : ℚ → ℚ → ℚ :=
  fun b e => if e = 0 then 1 else if b = 0 then 0 else 1.5

/-- A concrete stand-in for `math.sqrt` used in concrete evaluations. -/
def probeSqrt : ℚ → ℚ := fun _ => 0

/-- A concrete already-initialized stage (stored target 2) used as a
witness input. -/
def gainWitnessState : GainState :=
  { gainInit with initialized := true, storedTargetGain := 2 }

/-- A concrete already-initialized stage carrying a pending ramp step of
0.5 from a previous block, used as a counterexample input. -/
def gainRampingState : GainState :=
  { gainInit with initialized := true, storedTargetGain := 1, rampStep := 0.5 }

/-! ## Helper lemmas -/

/-- With a zero ramp step the sample loop multiplies every sample of both
channels by exactly the target gain. -/
theorem gainLoop_zero_step (start target mcl mcr : ℚ) :
    ∀ (pairs : List (ℚ × ℚ)) (counter : ℕ) (acc : ℚ × ℚ × ℚ),
      (gainLoop 0 start target mcl mcr pairs counter acc).1 =
        pairs.map (fun p => p.1 * target) ∧
      (gainLoop 0 start target mcl mcr pairs counter acc).2.1 =
        pairs.map (fun p => p.2 * target) := by
  intro pairs
  induction pairs with
  | nil => intro counter acc; simp [gainLoop]
  | cons p rest ih =>
    rintro counter ⟨g, mL, mR⟩
    obtain ⟨l, r⟩ := p
    simp [gainLoop, lt_self_iff_false, ih]

/-- With a zero ramp step and a nonempty block the loop's final current gain
is the target. -/
theorem gainLoop_zero_step_current (start target mcl mcr : ℚ) :
    ∀ (pairs : List (ℚ × ℚ)) (counter : ℕ) (acc : ℚ × ℚ × ℚ), pairs ≠ [] →
      (gainLoop 0 start target mcl mcr pairs counter acc).2.2.1 = target := by
  intro pairs
  induction pairs with
  | nil => intro counter acc h; exact absurd rfl h
  | cons p rest ih =>
    rintro counter ⟨g, mL, mR⟩ -
    obtain ⟨l, r⟩ := p
    by_cases hrest : rest = []
    · subst hrest; simp [gainLoop, lt_self_iff_false]
    · simp only [gainLoop, lt_self_iff_false, if_false]
      exact ih _ _ hrest

/-- On an empty block the loop returns its carried triple unchanged. -/
theorem gainLoop_nil (step start target mcl mcr : ℚ) (counter : ℕ)
    (acc : ℚ × ℚ × ℚ) :
    gainLoop step start target mcl mcr [] counter acc = ([], [], acc) := rfl

/-- With a positive ramp step and a nonempty block the loop's final current
gain is the lerp evaluated at the final counter value. -/
theorem gainLoop_pos_step_current (step start target mcl mcr : ℚ)
    (hs : 0 < step) :
    ∀ (pairs : List (ℚ × ℚ)) (counter : ℕ) (acc : ℚ × ℚ × ℚ), pairs ≠ [] →
      (gainLoop step start target mcl mcr pairs counter acc).2.2.1 =
        (1 - ((counter : ℚ) + pairs.length) * step) * start +
          ((counter : ℚ) + pairs.length) * step * target := by
  intro pairs
  induction pairs with
  | nil => intro counter acc h; exact absurd rfl h
  | cons p rest ih =>
    rintro counter ⟨g, mL, mR⟩ -
    obtain ⟨l, r⟩ := p
    by_cases hrest : rest = []
    · subst hrest
      simp only [gainLoop, if_pos hs, List.length_cons, List.length_nil]
      push_cast
      ring
    · simp only [gainLoop, if_pos hs, List.length_cons]
      rw [ih _ _ hrest]
      push_cast
      ring

/-- The sample loop produces one output sample per input pair on each
channel. -/
theorem gainLoop_length (step start target mcl mcr : ℚ) :
    ∀ (pairs : List (ℚ × ℚ)) (counter : ℕ) (acc : ℚ × ℚ × ℚ),
      (gainLoop step start target mcl mcr pairs counter acc).1.length =
        pairs.length ∧
      (gainLoop step start target mcl mcr pairs counter acc).2.1.length =
        pairs.length := by
  intro pairs
  induction pairs with
  | nil => intro counter acc; simp [gainLoop]
  | cons p rest ih =>
    rintro counter ⟨g, mL, mR⟩
    obtain ⟨l, r⟩ := p
    simp [gainLoop, ih]

/-- Behavior of `gainProcess` on an unchanged target (already-initialized stage): no
failure, both channels scaled by exactly the target, ramp bookkeeping reset,
current gain equal to the target as soon as the block is nonempty. -/
theorem gainProcess_unchanged_target (s : GainState) (L R : List ℚ)
    (cm : ℤ) (vn vb : ℚ)
    (hinit : s.initialized = true)
    (hdiff : |resolveTarget cm vn vb - s.storedTargetGain| < 1e-15)
    (hlen : R.length = L.length) :
    ∃ s', gainProcess s L R cm vn vb =
        some (s', L.map (· * resolveTarget cm vn vb),
              R.map (· * resolveTarget cm vn vb)) ∧
      s'.initialized = true ∧
      s'.storedTargetGain = resolveTarget cm vn vb ∧
      (L ≠ [] → s'.currentGain = resolveTarget cm vn vb) := by
  set t := resolveTarget cm vn vb with ht
  have hnotge : ¬ |t - s.storedTargetGain| ≥ 1e-15 := not_le.mpr hdiff
  have hsetup : gainSetup s t L.length =
      some { s with rampStep := 0, startGain := t, storedTargetGain := t } := by
    simp [gainSetup, hinit, if_neg hnotge]
  have h2 : (L.zip R).map (fun p => p.1 * t) = L.map (· * t) := by
    have hfst := List.map_fst_zip L R (le_of_eq hlen.symm)
    calc (L.zip R).map (fun p => p.1 * t)
        = ((L.zip R).map Prod.fst).map (· * t) := by rw [List.map_map]; rfl
      _ = L.map (· * t) := by rw [hfst]
  have h3 : (L.zip R).map (fun p => p.2 * t) = R.map (· * t) := by
    have hsnd := List.map_snd_zip L R (le_of_eq hlen)
    calc (L.zip R).map (fun p => p.2 * t)
        = ((L.zip R).map Prod.snd).map (· * t) := by rw [List.map_map]; rfl
      _ = R.map (· * t) := by rw [hsnd]
  obtain ⟨hout1, hout2⟩ := gainLoop_zero_step t t s.meterCoeffL s.meterCoeffR
    (L.zip R) 0 (s.currentGain, s.meterStateL, s.meterStateR)
  set res := gainLoop 0 t t s.meterCoeffL s.meterCoeffR (L.zip R) 0
    (s.currentGain, s.meterStateL, s.meterStateR) with hres
  refine ⟨{ s with
      rampStep := 0
      startGain := t
      storedTargetGain := t
      currentGain := res.2.2.1
      meterStateL := res.2.2.2.1
      meterStateR := res.2.2.2.2 }, ?_, ?_, ?_, ?_⟩
  · simp only [gainProcess, ← ht, hsetup]
    rw [hout1, hout2, h2, h3]
  · exact hinit
  · rfl
  · intro hL
    have hzip : L.zip R ≠ [] := by
      intro hcontra
      have hmin : min L.length R.length = 0 := by
        simpa using congrArg List.length hcontra
      rcases Nat.min_eq_zero_iff.mp hmin with h | h
      · exact hL (List.length_eq_zero.mp h)
      · exact hL (List.length_eq_zero.mp (hlen ▸ h : L.length = 0))
    simpa using gainLoop_zero_step_current t t s.meterCoeffL
      s.meterCoeffR (L.zip R) 0 (s.currentGain, s.meterStateL, s.meterStateR) hzip

/-- Unchanged-target calls scale both channels by exactly the target
(existential corollary of `gainProcess_unchanged_target`). -/
theorem gainProcess_no_ramp_maps (s : GainState) (L R : List ℚ)
    (cm : ℤ) (vn vb : ℚ)
    (hinit : s.initialized = true)
    (hdiff : |resolveTarget cm vn vb - s.storedTargetGain| < 1e-15)
    (hlen : R.length = L.length) :
    ∃ s', gainProcess s L R cm vn vb =
      some (s', L.map (· * resolveTarget cm vn vb),
            R.map (· * resolveTarget cm vn vb)) := by
  obtain ⟨s', h, -, -, -⟩ :=
    gainProcess_unchanged_target s L R cm vn vb hinit hdiff hlen
  exact ⟨s', h⟩

/-- Parallel blocks of equal positive length have a nonempty zip. -/
theorem zip_ne_nil (L R : List ℚ) (hL : L ≠ []) (hlen : R.length = L.length) :
    L.zip R ≠ [] := by
  intro hcontra
  have hmin : min L.length R.length = 0 := by
    simpa using congrArg List.length hcontra
  rcases Nat.min_eq_zero_iff.mp hmin with h | h
  · exact hL (List.length_eq_zero.mp h)
  · exact hL (List.length_eq_zero.mp (hlen ▸ h : L.length = 0))

/-- Behavior of `gainProcess` on a changed target (already-initialized stage, nonempty
block): no failure, and the block ends with the current gain exactly at the
new target. -/
theorem gainProcess_ramp (s : GainState) (L R : List ℚ)
    (cm : ℤ) (vn vb : ℚ)
    (hinit : s.initialized = true)
    (hdiff : |resolveTarget cm vn vb - s.storedTargetGain| ≥ 1e-15)
    (hL : L ≠ []) (hlen : R.length = L.length) :
    ∃ s' oL oR, gainProcess s L R cm vn vb = some (s', oL, oR) ∧
      s'.initialized = true ∧
      s'.storedTargetGain = resolveTarget cm vn vb ∧
      s'.currentGain = resolveTarget cm vn vb := by
  set t := resolveTarget cm vn vb with ht
  have hn : L.length ≠ 0 := fun h => hL (List.length_eq_zero.mp h)
  have hsetup : gainSetup s t L.length =
      some { s with
        rampStep := 1 / (L.length : ℚ)
        startGain := s.storedTargetGain
        storedTargetGain := t } := by
    simp [gainSetup, hinit, if_pos hdiff, hn]
  have hQpos : (0 : ℚ) < (L.length : ℚ) :=
    Nat.cast_pos.mpr (Nat.pos_of_ne_zero hn)
  have hstep : (0 : ℚ) < 1 / (L.length : ℚ) := by positivity
  have hzip : L.zip R ≠ [] := zip_ne_nil L R hL hlen
  have hziplen : ((L.zip R).length : ℚ) = (L.length : ℚ) := by
    rw [List.length_zip, hlen, min_self]
  have hcur := gainLoop_pos_step_current (1 / (L.length : ℚ))
    s.storedTargetGain t s.meterCoeffL s.meterCoeffR hstep (L.zip R) 0
    (s.currentGain, s.meterStateL, s.meterStateR) hzip
  have hone : ((0 : ℕ) : ℚ) + ((L.zip R).length : ℚ) = (L.length : ℚ) := by
    rw [hziplen]; push_cast; ring
  have hcur' : (gainLoop (1 / (L.length : ℚ)) s.storedTargetGain t
      s.meterCoeffL s.meterCoeffR (L.zip R) 0
      (s.currentGain, s.meterStateL, s.meterStateR)).2.2.1 = t := by
    rw [hcur, hone]
    rw [mul_one_div, div_self (ne_of_gt hQpos)]
    ring
  set res := gainLoop (1 / (L.length : ℚ)) s.storedTargetGain t
    s.meterCoeffL s.meterCoeffR (L.zip R) 0
    (s.currentGain, s.meterStateL, s.meterStateR) with hres
  refine ⟨{ s with
      rampStep := 1 / (L.length : ℚ)
      startGain := s.storedTargetGain
      storedTargetGain := t
      currentGain := res.2.2.1
      meterStateL := res.2.2.2.1
      meterStateR := res.2.2.2.2 }, res.1, res.2.1, ?_, hinit, rfl, hcur'⟩
  simp only [gainProcess, ← ht, hsetup]

/-! ## Claim theorems -/

/-- C2: in the test.py ZDF filter's per-sample solve, the reciprocal of
`denom = mix·C0 + 1` is replaced by 0 whenever `|denom|` is below the 1e-20
guard, so the per-sample computation never takes a reciprocal of a
(near-)zero denominator. -/
theorem c2_filter_inv_guard (c0 c1 : ℚ) :
    (|filtDenom c0 c1| < 1e-20 → filtInv c0 c1 = 0) ∧
    (filtInv c0 c1 = 0 ∨ |filtDenom c0 c1| > 1e-20) := by
  unfold filtInv
  by_cases h : |filtDenom c0 c1| > 1e-20
  · rw [if_pos h]
    exact ⟨fun hlt => absurd (hlt.trans h) (lt_irrefl _), Or.inr h⟩
  · rw [if_neg h]
    exact ⟨fun _ => rfl, Or.inl rfl⟩

/-- Witness for C2 at the concrete coefficients c0 = 1, c1 = -1, where the
denominator is exactly 0. -/
theorem c2_filter_inv_guard_witness :
    |filtDenom 1 (-1)| < 1e-20 ∧ filtInv 1 (-1) = 0 :=
  ⟨by norm_num [filtDenom], (c2_filter_inv_guard 1 (-1)).1 (by norm_num [filtDenom])⟩

/-- C4: in the gain computer, for every envelope value (as produced by the
detector in either RMS or Peak mode) at or below the threshold, the target
linear gain is exactly 1, whatever the pow approximation does. -/
theorem c4_below_threshold_unity (cc : CompCoeffs) (powf : ℚ → ℚ → ℚ)
    (sqrtf : ℚ → ℚ) (slope : ℚ) (s : CompState) (l r : ℚ)
    (henv : (detector cc sqrtf s l r).2 ≤ s.threshold) :
    targetGainLinear powf s.threshold slope (detector cc sqrtf s l r).2 = 1 := by
  unfold targetGainLinear
  rw [if_neg (not_lt.mpr henv)]

/-- Witness for C4 at a concrete RMS-mode state and zero input (with a pow
function chosen to return 5 everywhere, showing the result does not depend
on it). -/
theorem c4_below_threshold_unity_witness :
    (detector ⟨0.5, 0.5, 0.5, 0.5⟩ (fun _ => 0) (compInit 0 1 4) 0 0).2 ≤
        (compInit 0 1 4).threshold ∧
    targetGainLinear (fun _ _ => 5) (compInit 0 1 4).threshold 0.75
        (detector ⟨0.5, 0.5, 0.5, 0.5⟩ (fun _ => 0) (compInit 0 1 4) 0 0).2 = 1 :=
  ⟨by decide, c4_below_threshold_unity ⟨0.5, 0.5, 0.5, 0.5⟩ (fun _ _ => 5)
    (fun _ => 0) 0.75 (compInit 0 1 4) 0 0 (by decide)⟩

/-- C5: `set_parameters` leaves every persistent state field of every
component instance unchanged; only the limiter's derived threshold/ratio
scalars and the stored knob values change. -/
theorem c5_set_parameters_preserves_state (c : Clone) (midAir highAir trimDb : ℚ) :
    (setParameters c midAir highAir trimDb).midFilter = c.midFilter ∧
    (setParameters c midAir highAir trimDb).midComp = c.midComp ∧
    (setParameters c midAir highAir trimDb).highFilter = c.highFilter ∧
    (setParameters c midAir highAir trimDb).highGate = c.highGate ∧
    (setParameters c midAir highAir trimDb).highGain = c.highGain ∧
    (setParameters c midAir highAir trimDb).highLimiter.rmsState = c.highLimiter.rmsState ∧
    (setParameters c midAir highAir trimDb).highLimiter.peakState = c.highLimiter.peakState ∧
    (setParameters c midAir highAir trimDb).highLimiter.gainState = c.highLimiter.gainState ∧
    (setParameters c midAir highAir trimDb).highLimiter.mode = c.highLimiter.mode ∧
    (setParameters c midAir highAir trimDb).trimGain = c.trimGain ∧
    (setParameters c midAir highAir trimDb).staticPad = c.staticPad :=
  ⟨rfl, rfl, rfl, rfl, rfl, rfl, rfl, rfl, rfl, rfl, rfl⟩

/-- C9: for an initialized stage whose target is unchanged within 1e-15,
every sample of both channels of the block is multiplied by exactly the
target gain. -/
theorem c9_no_ramp_idempotence (s : GainState) (L R : List ℚ)
    (cm : ℤ) (vn vb : ℚ)
    (hinit : s.initialized = true)
    (hdiff : |resolveTarget cm vn vb - s.storedTargetGain| < 1e-15)
    (hlen : R.length = L.length) :
    ∃ s', gainProcess s L R cm vn vb =
      some (s', L.map (· * resolveTarget cm vn vb),
            R.map (· * resolveTarget cm vn vb)) :=
  gainProcess_no_ramp_maps s L R cm vn vb hinit hdiff hlen

/-- Witness for C9 at a concrete initialized stage with target 2. -/
theorem c9_no_ramp_idempotence_witness :
    |resolveTarget 0 2 0 - gainWitnessState.storedTargetGain| < 1e-15 ∧
    ∃ s', gainProcess gainWitnessState [3] [4] 0 2 0 = some (s', [6], [8]) := by
  refine ⟨by norm_num [resolveTarget, gainWitnessState, gainInit], ?_⟩
  obtain ⟨s', h⟩ := c9_no_ramp_idempotence gainWitnessState [3] [4] 0 2 0
    rfl (by norm_num [resolveTarget, gainWitnessState, gainInit]) rfl
  norm_num [resolveTarget] at h
  exact ⟨s', h⟩

/-- C10 (amended): an already-initialized stage called on an empty block
with a target change of at least 1e-15 fails (the Python
`1.0 / float(block_size)` raises); every other empty-block call returns
normally with the meter states unchanged, the current gain unchanged
whenever the stage was already initialized, and the stored target updated
(the per-block ramp fields are recomputed). -/
theorem c10_empty_block (s : GainState) (cm : ℤ) (vn vb : ℚ) :
    (s.initialized = true → |resolveTarget cm vn vb - s.storedTargetGain| ≥ 1e-15 →
      gainProcess s [] [] cm vn vb = none) ∧
    ((s.initialized = true → |resolveTarget cm vn vb - s.storedTargetGain| < 1e-15) →
      ∃ s', gainProcess s [] [] cm vn vb = some (s', [], []) ∧
        s'.meterStateL = s.meterStateL ∧ s'.meterStateR = s.meterStateR ∧
        (s.initialized = true → s'.currentGain = s.currentGain) ∧
        s'.storedTargetGain = resolveTarget cm vn vb) := by
  set t := resolveTarget cm vn vb with ht
  constructor
  · intro hinit hge
    simp [gainProcess, ← ht, gainSetup, hinit, if_pos hge]
  · intro h
    by_cases hinit : s.initialized = true
    · have hnot : ¬ |t - s.storedTargetGain| ≥ 1e-15 := not_le.mpr (h hinit)
      refine ⟨{ s with rampStep := 0, startGain := t, storedTargetGain := t },
        ?_, rfl, rfl, fun _ => rfl, rfl⟩
      simp [gainProcess, ← ht, gainSetup, hinit, if_neg hnot, gainLoop]
    · have hfalse : s.initialized = false := by
        cases hb : s.initialized
        · rfl
        · exact absurd hb hinit
      refine ⟨{ s with
        initialized := true
        startGain := t
        storedTargetGain := t
        rampStep := 0
        currentGain := t }, ?_, rfl, rfl, fun hcontra => absurd hcontra hinit, rfl⟩
      simp [gainProcess, ← ht, gainSetup, hfalse, gainLoop]

/-- Witness for C10: an uninitialized stage on an empty block returns
normally (discharging the amended theorem's hypotheses concretely). -/
theorem c10_empty_block_witness :
    (gainInit.initialized = true → |resolveTarget 0 1 0 - gainInit.storedTargetGain| < 1e-15) ∧
    ∃ s', gainProcess gainInit [] [] 0 1 0 = some (s', [], []) ∧
      s'.meterStateL = gainInit.meterStateL ∧ s'.meterStateR = gainInit.meterStateR ∧
      (gainInit.initialized = true → s'.currentGain = gainInit.currentGain) ∧
      s'.storedTargetGain = resolveTarget 0 1 0 :=
  ⟨by decide, (c10_empty_block gainInit 0 1 0).2 (by decide)⟩

/-- Counterexample for C10 as stated: an already-initialized stage with a
pending ramp step of 0.5, called on an empty block with an unchanged
target, returns normally but its `_ramp_step` state field changes to 0 —
so state other than the stored target is not left unchanged. -/
theorem c10_counterexample :
    ((gainProcess gainRampingState [] [] 0 1 0).map fun x => x.1.rampStep) = some 0 ∧
    gainRampingState.rampStep ≠ 0 := by
  constructor
  · have h0 : ¬ ((1e-15 : ℚ) ≤ 0) := by norm_num
    simp [gainProcess, gainSetup, gainRampingState, gainInit, resolveTarget,
      gainLoop, h0]
  · norm_num [gainRampingState, gainInit]

/-- C1 (code bug): the high-lane "static gate" (an `UnknownCompressor` with
threshold 0, Peak mode 2, default ratio 4) is NOT an identity stage.  On the
unit block [1],[1] the gain computer evaluates `pow(0/env, 0.75) = 0`, the
ballistics pull the smoothed gain to `1 - gainSmoothCoeff`, and the output
sample is `1 - gainSmoothCoeff ≠ 1` for any positive smoothing coefficient
(the real coefficient `1 - exp(-1/(0.005·44100))` is positive). -/
theorem c1_gate_not_identity (cc : CompCoeffs) (powf : ℚ → ℚ → ℚ)
    (sqrtf : ℚ → ℚ) (hac : 0 < cc.attack) (hgs : 0 < cc.gainSmooth)
    (hpow : powf 0 (3 / 4) = 0) :
    (compProcess cc powf sqrtf (compInit 2 0 4) [1] [1]).2.1 =
      [1 - cc.gainSmooth] ∧
    (compProcess cc powf sqrtf (compInit 2 0 4) [1] [1]).2.1 ≠ [1] := by
  have hdet : detector cc sqrtf (compInit 2 0 4) 1 1 =
      ({ compInit 2 0 4 with peakState := cc.attack }, cc.attack) := by
    norm_num [detector, compInit, peakLevel]
  have hslope : slopeOf (4 : ℚ) = 3 / 4 := by norm_num [slopeOf]
  have htg : targetGainLinear powf 0 (slopeOf 4) cc.attack = 0 := by
    rw [hslope]
    unfold targetGainLinear
    rw [if_pos hac]
    simp only [zero_div, hpow]
  have hstep : compStep cc powf sqrtf (slopeOf 4) (compInit 2 0 4) 1 1 =
      ({ compInit 2 0 4 with
          peakState := cc.attack
          gainState := 1 - cc.gainSmooth },
        1 - cc.gainSmooth, 1 - cc.gainSmooth) := by
    simp only [compStep, hdet]
    have : (compInit 2 0 4).threshold = 0 := rfl
    rw [this, htg]
    have hg : (1 : ℚ) + (0 - 1) * cc.gainSmooth = 1 - cc.gainSmooth := by ring
    simp [compInit]
    ring
  have hout : (compProcess cc powf sqrtf (compInit 2 0 4) [1] [1]).2.1 =
      [1 - cc.gainSmooth] := by
    have hratio : slopeOf (compInit 2 0 4).ratio = slopeOf 4 := rfl
    simp only [compProcess, List.zip_cons_cons, List.zip_nil_right, compRun,
      hratio, hstep]
  refine ⟨hout, ?_⟩
  rw [hout]
  intro hcontra
  have h1 : (1 : ℚ) - cc.gainSmooth = 1 := by
    simpa using hcontra
  have : cc.gainSmooth = 0 := by linarith
  exact absurd this (ne_of_gt hgs)

/-- Witness for C1 at concrete coefficients (all 1/2) and a pow function
agreeing with `math.pow` at the only point used, `pow(0, 0.75) = 0`. -/
theorem c1_gate_not_identity_witness :
    (0 : ℚ) < (0.5 : ℚ) ∧ ((fun (_ _ : ℚ) => (0 : ℚ)) 0 (3 / 4) = 0) ∧
    (compProcess ⟨0.5, 0.5, 0.5, 0.5⟩ (fun _ _ => 0) (fun _ => 0)
      (compInit 2 0 4) [1] [1]).2.1 ≠ [1] :=
  ⟨by norm_num, rfl,
    (c1_gate_not_identity ⟨0.5, 0.5, 0.5, 0.5⟩ (fun _ _ => 0) (fun _ => 0)
      (by norm_num) (by norm_num) rfl).2⟩

/-- C3: for an initialized stage, block size ≥ 1 and a target change from
G0 to G1 of at least 1e-15, the ramping block ends with `currentGain`
exactly at G1 (hence within any floating tolerance), and the following call
with unchanged target scales every sample — in particular the first — by
exactly G1. -/
theorem c3_ramp_completeness (s : GainState) (G0 G1 : ℚ)
    (cm1 cm2 : ℤ) (vn1 vb1 vn2 vb2 : ℚ) (L1 R1 L2 R2 : List ℚ)
    (hinit : s.initialized = true) (hG0 : s.storedTargetGain = G0)
    (ht1 : resolveTarget cm1 vn1 vb1 = G1)
    (ht2 : resolveTarget cm2 vn2 vb2 = G1)
    (hdiff : |G1 - G0| ≥ 1e-15)
    (hL1 : L1 ≠ []) (hlen1 : R1.length = L1.length)
    (hL2 : L2 ≠ []) (hlen2 : R2.length = L2.length) :
    ∃ s' oL oR, gainProcess s L1 R1 cm1 vn1 vb1 = some (s', oL, oR) ∧
      s'.currentGain = G1 ∧
      ∃ s'', gainProcess s' L2 R2 cm2 vn2 vb2 =
        some (s'', L2.map (· * G1), R2.map (· * G1)) := by
  have hdiff1 : |resolveTarget cm1 vn1 vb1 - s.storedTargetGain| ≥ 1e-15 := by
    rw [ht1, hG0]; exact hdiff
  obtain ⟨s', oL, oR, hrun, hinit', hstored', hcur'⟩ :=
    gainProcess_ramp s L1 R1 cm1 vn1 vb1 hinit hdiff1 hL1 hlen1
  refine ⟨s', oL, oR, hrun, by rw [hcur', ht1], ?_⟩
  have hdiff2 : |resolveTarget cm2 vn2 vb2 - s'.storedTargetGain| < 1e-15 := by
    rw [ht2, hstored', ht1]
    simp
    norm_num
  obtain ⟨s'', hrun2⟩ :=
    gainProcess_no_ramp_maps s' L2 R2 cm2 vn2 vb2 hinit' hdiff2 hlen2
  refine ⟨s'', ?_⟩
  rw [← ht2]
  exact hrun2

/-- Witness for C3: initialized stage with stored target 2, ramped to
target 3 over a 2-sample block, then an unchanged-target call. -/
theorem c3_ramp_completeness_witness :
    |(3 : ℚ) - 2| ≥ 1e-15 ∧
    ∃ s' oL oR, gainProcess gainWitnessState [1, 1] [1, 1] 0 3 0 =
        some (s', oL, oR) ∧
      s'.currentGain = 3 ∧
      ∃ s'', gainProcess s' [4] [5] 0 3 0 =
        some (s'', [(4 : ℚ)].map (· * 3), [(5 : ℚ)].map (· * 3)) :=
  ⟨by norm_num,
    c3_ramp_completeness gainWitnessState 2 3 0 0 3 0 3 0 [1, 1] [1, 1] [4] [5]
      rfl rfl (by norm_num [resolveTarget]) (by norm_num [resolveTarget])
      (by norm_num) (by simp) rfl (by simp) rfl⟩

/-- The per-sample step never changes the detector mode. -/
theorem compStep_mode (cc : CompCoeffs) (powf : ℚ → ℚ → ℚ) (sqrtf : ℚ → ℚ)
    (slope : ℚ) (s : CompState) (l r : ℚ) :
    (compStep cc powf sqrtf slope s l r).1.mode = s.mode := by
  by_cases h : s.mode = 0 <;> simp [compStep, detector, h]

/-- Iterating the per-sample step never changes the detector mode. -/
theorem compStateIter_mode (cc : CompCoeffs) (powf : ℚ → ℚ → ℚ)
    (sqrtf : ℚ → ℚ) (slope l r : ℚ) (s : CompState) :
    ∀ n, (compStateIter cc powf sqrtf slope l r n s).mode = s.mode := by
  intro n
  induction n with
  | zero => rfl
  | succ k ih =>
    rw [compStateIter, Function.iterate_succ_apply'] at *
    rw [compStep_mode]
    exact ih

/-- In Peak mode the per-sample step updates the peak state by asymmetric
one-pole smoothing toward the instantaneous level. -/
theorem compStep_peakState (cc : CompCoeffs) (powf : ℚ → ℚ → ℚ)
    (sqrtf : ℚ → ℚ) (slope : ℚ) (s : CompState) (l r : ℚ)
    (h : ¬ s.mode = 0) :
    (compStep cc powf sqrtf slope s l r).1.peakState =
      s.peakState + (peakLevel l r - s.peakState) *
        (if peakLevel l r > s.peakState then cc.attack else cc.release) := by
  simp [compStep, detector, h]

/-- Upward step response: if the peak state starts at or below the constant
input level, it stays at or below it and the gap shrinks geometrically with
ratio `1 - attack` (the release coefficient never contributes). -/
theorem peakIter_up_invariant (cc : CompCoeffs) (powf : ℚ → ℚ → ℚ)
    (sqrtf : ℚ → ℚ) (slope l r : ℚ) (s : CompState)
    (hmode : ¬ s.mode = 0) (hac0 : 0 ≤ cc.attack) (hac1 : cc.attack ≤ 1)
    (hinit : s.peakState ≤ peakLevel l r) :
    ∀ n, (compStateIter cc powf sqrtf slope l r n s).peakState ≤ peakLevel l r ∧
      peakLevel l r - (compStateIter cc powf sqrtf slope l r n s).peakState =
        (1 - cc.attack) ^ n * (peakLevel l r - s.peakState) := by
  intro n
  induction n with
  | zero => simpa [compStateIter] using hinit
  | succ k ih =>
    obtain ⟨hle, heq⟩ := ih
    have hmodek : ¬ (compStateIter cc powf sqrtf slope l r k s).mode = 0 := by
      rw [compStateIter_mode]; exact hmode
    have hstep : compStateIter cc powf sqrtf slope l r (k + 1) s =
        (compStep cc powf sqrtf slope
          (compStateIter cc powf sqrtf slope l r k s) l r).1 := by
      rw [compStateIter, compStateIter, Function.iterate_succ_apply']
    rw [hstep, compStep_peakState cc powf sqrtf slope _ l r hmodek]
    set v := peakLevel l r with hv
    set p := (compStateIter cc powf sqrtf slope l r k s).peakState with hp
    by_cases hbr : v > p
    · rw [if_pos hbr]
      constructor
      · nlinarith [mul_nonneg (sub_nonneg.mpr hle) (sub_nonneg.mpr hac1)]
      · have hlin : v - (p + (v - p) * cc.attack) = (v - p) * (1 - cc.attack) := by
          ring
        rw [hlin, heq, pow_succ]
        ring
    · rw [if_neg hbr]
      have hveq : p = v := le_antisymm hle (not_lt.mp hbr)
      have h0 : (1 - cc.attack) ^ k * (v - s.peakState) = 0 := by
        rw [← heq, hveq]; ring
      constructor
      · rw [hveq]; simp
      · rw [hveq]
        linear_combination (cc.attack - 1) * h0

/-- Downward step response: if the peak state starts at or above the
constant input level, it stays at or above it and the gap shrinks
geometrically with ratio `1 - release` (the attack coefficient never
contributes). -/
theorem peakIter_down_invariant (cc : CompCoeffs) (powf : ℚ → ℚ → ℚ)
    (sqrtf : ℚ → ℚ) (slope l r : ℚ) (s : CompState)
    (hmode : ¬ s.mode = 0) (hrc0 : 0 ≤ cc.release) (hrc1 : cc.release ≤ 1)
    (hinit : peakLevel l r ≤ s.peakState) :
    ∀ n, peakLevel l r ≤ (compStateIter cc powf sqrtf slope l r n s).peakState ∧
      (compStateIter cc powf sqrtf slope l r n s).peakState - peakLevel l r =
        (1 - cc.release) ^ n * (s.peakState - peakLevel l r) := by
  intro n
  induction n with
  | zero => simpa [compStateIter] using hinit
  | succ k ih =>
    obtain ⟨hle, heq⟩ := ih
    have hmodek : ¬ (compStateIter cc powf sqrtf slope l r k s).mode = 0 := by
      rw [compStateIter_mode]; exact hmode
    have hstep : compStateIter cc powf sqrtf slope l r (k + 1) s =
        (compStep cc powf sqrtf slope
          (compStateIter cc powf sqrtf slope l r k s) l r).1 := by
      rw [compStateIter, compStateIter, Function.iterate_succ_apply']
    rw [hstep, compStep_peakState cc powf sqrtf slope _ l r hmodek]
    set v := peakLevel l r with hv
    set p := (compStateIter cc powf sqrtf slope l r k s).peakState with hp
    have hbr : ¬ v > p := not_lt.mpr hle
    rw [if_neg hbr]
    constructor
    · nlinarith [mul_nonneg (sub_nonneg.mpr hle) (sub_nonneg.mpr hrc1)]
    · have hlin : p + (v - p) * cc.release - v = (p - v) * (1 - cc.release) := by
        ring
      rw [hlin, heq, pow_succ]
      ring

/-- C7: in Peak mode (mode = 2), for a constant stereo input whose level
exceeds the current peak state, the peak state is non-decreasing
sample-to-sample and its distance to the input level is exactly
`(1 - attack)^n` of the initial distance (a rate governed solely by the
attack coefficient); for a constant input below the current peak state it
is non-increasing with the distance scaled by `(1 - release)^n`. -/
theorem c7_peak_step_response (cc : CompCoeffs) (powf : ℚ → ℚ → ℚ)
    (sqrtf : ℚ → ℚ) (slope : ℚ) (s : CompState) (l r : ℚ) (n : ℕ)
    (hmode : s.mode = 2)
    (hac0 : 0 ≤ cc.attack) (hac1 : cc.attack ≤ 1)
    (hrc0 : 0 ≤ cc.release) (hrc1 : cc.release ≤ 1) :
    (s.peakState < peakLevel l r →
      (compStateIter cc powf sqrtf slope l r n s).peakState ≤
        (compStateIter cc powf sqrtf slope l r (n + 1) s).peakState ∧
      peakLevel l r - (compStateIter cc powf sqrtf slope l r n s).peakState =
        (1 - cc.attack) ^ n * (peakLevel l r - s.peakState)) ∧
    (peakLevel l r < s.peakState →
      (compStateIter cc powf sqrtf slope l r (n + 1) s).peakState ≤
        (compStateIter cc powf sqrtf slope l r n s).peakState ∧
      (compStateIter cc powf sqrtf slope l r n s).peakState - peakLevel l r =
        (1 - cc.release) ^ n * (s.peakState - peakLevel l r)) := by
  have hmode0 : ¬ s.mode = 0 := by rw [hmode]; decide
  constructor
  · intro hup
    obtain ⟨hn_le, hn_eq⟩ := peakIter_up_invariant cc powf sqrtf slope l r s
      hmode0 hac0 hac1 (le_of_lt hup) n
    obtain ⟨hsn_le, hsn_eq⟩ := peakIter_up_invariant cc powf sqrtf slope l r s
      hmode0 hac0 hac1 (le_of_lt hup) (n + 1)
    refine ⟨?_, hn_eq⟩
    have hfac : (0 : ℚ) ≤ (1 - cc.attack) ^ n := pow_nonneg (by linarith) n
    have hD : (0 : ℚ) ≤ peakLevel l r - s.peakState := by linarith
    nlinarith [mul_nonneg (mul_nonneg hfac hD) hac0, pow_succ (1 - cc.attack) n]
  · intro hdown
    obtain ⟨hn_le, hn_eq⟩ := peakIter_down_invariant cc powf sqrtf slope l r s
      hmode0 hrc0 hrc1 (le_of_lt hdown) n
    obtain ⟨hsn_le, hsn_eq⟩ := peakIter_down_invariant cc powf sqrtf slope l r s
      hmode0 hrc0 hrc1 (le_of_lt hdown) (n + 1)
    refine ⟨?_, hn_eq⟩
    have hfac : (0 : ℚ) ≤ (1 - cc.release) ^ n := pow_nonneg (by linarith) n
    have hD : (0 : ℚ) ≤ s.peakState - peakLevel l r := by linarith
    nlinarith [mul_nonneg (mul_nonneg hfac hD) hrc0, pow_succ (1 - cc.release) n]

/-- Witness for C7 at a fresh Peak-mode state (peak 0) and constant input
(1, 0), attack and release coefficients 1/2, specialized to n = 2. -/
theorem c7_peak_step_response_witness :
    (compInit 2 0 4).peakState < peakLevel 1 0 ∧
    ((compStateIter ⟨0.5, 0.5, 0.5, 0.5⟩ (fun _ _ => 0) (fun _ => 0) 0.75 1 0 2
        (compInit 2 0 4)).peakState ≤
      (compStateIter ⟨0.5, 0.5, 0.5, 0.5⟩ (fun _ _ => 0) (fun _ => 0) 0.75 1 0 3
        (compInit 2 0 4)).peakState ∧
      peakLevel 1 0 - (compStateIter ⟨0.5, 0.5, 0.5, 0.5⟩ (fun _ _ => 0)
          (fun _ => 0) 0.75 1 0 2 (compInit 2 0 4)).peakState =
        (1 - (0.5 : ℚ)) ^ 2 * (peakLevel 1 0 - (compInit 2 0 4).peakState)) :=
  ⟨by norm_num [peakLevel, compInit],
    (c7_peak_step_response ⟨0.5, 0.5, 0.5, 0.5⟩ (fun _ _ => 0) (fun _ => 0)
      0.75 (compInit 2 0 4) 1 0 2 rfl (by norm_num) (by norm_num)
      (by norm_num) (by norm_num)).1 (by norm_num [peakLevel, compInit])⟩

/-- The Peak-mode instantaneous level is non-negative (it is a maximum of
absolute values). -/
theorem peakLevel_nonneg (l r : ℚ) : 0 ≤ peakLevel l r := by
  by_cases h : |l| > |r| <;> simp [peakLevel, h, abs_nonneg]

/-- The per-sample step keeps both detector states non-negative when the
smoothing coefficients lie in [0, 1]. -/
theorem compStep_state_nonneg (cc : CompCoeffs) (powf : ℚ → ℚ → ℚ)
    (sqrtf : ℚ → ℚ) (slope : ℚ) (s : CompState) (l r : ℚ)
    (hrms0 : 0 ≤ cc.rms) (hrms1 : cc.rms ≤ 1)
    (hac0 : 0 ≤ cc.attack) (hac1 : cc.attack ≤ 1)
    (hrc0 : 0 ≤ cc.release) (hrc1 : cc.release ≤ 1)
    (h1 : 0 ≤ s.rmsState) (h2 : 0 ≤ s.peakState) :
    0 ≤ (compStep cc powf sqrtf slope s l r).1.rmsState ∧
    0 ≤ (compStep cc powf sqrtf slope s l r).1.peakState := by
  by_cases h : s.mode = 0
  · simp only [compStep, detector, h, if_true, if_pos]
    constructor
    · have hP : (0 : ℚ) ≤
          (if (l * l + r * r) * 0.5 ≤ EPSILON then EPSILON
           else (l * l + r * r) * 0.5) := by
        split
        · norm_num [EPSILON]
        · nlinarith [sq_nonneg l, sq_nonneg r]
      set P := (if (l * l + r * r) * 0.5 ≤ EPSILON then EPSILON
        else (l * l + r * r) * 0.5) with hPdef
      nlinarith [mul_nonneg h1 (sub_nonneg.mpr hrms1), mul_nonneg hP hrms0]
    · exact h2
  · simp only [compStep, detector, h, if_false, if_neg]
    constructor
    · exact h1
    · have hlev := peakLevel_nonneg l r
      by_cases hbr : peakLevel l r > s.peakState
      · rw [if_pos hbr]
        nlinarith [mul_nonneg h2 (sub_nonneg.mpr hac1), mul_nonneg hlev hac0]
      · rw [if_neg hbr]
        nlinarith [mul_nonneg h2 (sub_nonneg.mpr hrc1), mul_nonneg hlev hrc0]

/-- The `process_block` loop keeps both detector states non-negative. -/
theorem compRun_state_nonneg (cc : CompCoeffs) (powf : ℚ → ℚ → ℚ)
    (sqrtf : ℚ → ℚ) (slope : ℚ)
    (hrms0 : 0 ≤ cc.rms) (hrms1 : cc.rms ≤ 1)
    (hac0 : 0 ≤ cc.attack) (hac1 : cc.attack ≤ 1)
    (hrc0 : 0 ≤ cc.release) (hrc1 : cc.release ≤ 1) :
    ∀ (pairs : List (ℚ × ℚ)) (s : CompState),
      0 ≤ s.rmsState → 0 ≤ s.peakState →
      0 ≤ (compRun cc powf sqrtf slope s pairs).1.rmsState ∧
      0 ≤ (compRun cc powf sqrtf slope s pairs).1.peakState := by
  intro pairs
  induction pairs with
  | nil => intro s h1 h2; exact ⟨h1, h2⟩
  | cons p rest ih =>
    intro s h1 h2
    obtain ⟨l, r⟩ := p
    obtain ⟨hs1, hs2⟩ := compStep_state_nonneg cc powf sqrtf slope s l r
      hrms0 hrms1 hac0 hac1 hrc0 hrc1 h1 h2
    simpa [compRun] using ih _ hs1 hs2

/-- C8: with the one-pole coefficients in [0, 1] (as produced by
`1 - exp(-1/(t·sr))`), both detector states — the RMS power accumulator and
the Peak state — remain non-negative after every sample and hence after
every block, in every mode, for every input (negative samples included). -/
theorem c8_envelope_nonneg (cc : CompCoeffs) (powf : ℚ → ℚ → ℚ)
    (sqrtf : ℚ → ℚ)
    (hrms0 : 0 ≤ cc.rms) (hrms1 : cc.rms ≤ 1)
    (hac0 : 0 ≤ cc.attack) (hac1 : cc.attack ≤ 1)
    (hrc0 : 0 ≤ cc.release) (hrc1 : cc.release ≤ 1) :
    (∀ (slope : ℚ) (s : CompState) (l r : ℚ),
      0 ≤ s.rmsState → 0 ≤ s.peakState →
      0 ≤ (compStep cc powf sqrtf slope s l r).1.rmsState ∧
      0 ≤ (compStep cc powf sqrtf slope s l r).1.peakState) ∧
    (∀ (s : CompState) (L R : List ℚ),
      0 ≤ s.rmsState → 0 ≤ s.peakState →
      0 ≤ (compProcess cc powf sqrtf s L R).1.rmsState ∧
      0 ≤ (compProcess cc powf sqrtf s L R).1.peakState) := by
  constructor
  · intro slope s l r h1 h2
    exact compStep_state_nonneg cc powf sqrtf slope s l r
      hrms0 hrms1 hac0 hac1 hrc0 hrc1 h1 h2
  · intro s L R h1 h2
    exact compRun_state_nonneg cc powf sqrtf (slopeOf s.ratio)
      hrms0 hrms1 hac0 hac1 hrc0 hrc1 (L.zip R) s h1 h2

/-- Witness for C8 at concrete coefficients 1/2 and a block containing
negative samples, starting from the fresh RMS-mode state. -/
theorem c8_envelope_nonneg_witness :
    (0 : ℚ) ≤ (compInit 0 0.0316 2).rmsState ∧
    0 ≤ (compProcess ⟨0.5, 0.5, 0.5, 0.5⟩ (fun _ _ => 0) (fun _ => 0)
        (compInit 0 0.0316 2) [1, -2] [-3, 4]).1.rmsState ∧
    0 ≤ (compProcess ⟨0.5, 0.5, 0.5, 0.5⟩ (fun _ _ => 0) (fun _ => 0)
        (compInit 0 0.0316 2) [1, -2] [-3, 4]).1.peakState :=
  ⟨le_refl 0,
    (c8_envelope_nonneg ⟨0.5, 0.5, 0.5, 0.5⟩ (fun _ _ => 0) (fun _ => 0)
      (by norm_num) (by norm_num) (by norm_num) (by norm_num) (by norm_num)
      (by norm_num)).2 (compInit 0 0.0316 2) [1, -2] [-3, 4]
      (le_refl 0) (le_refl 0)⟩

/-- The filter loop produces one output sample per input pair per channel. -/
theorem filtRun_length :
    ∀ (pairs : List (ℚ × ℚ)) (f : FiltState),
      (filtRun f pairs).2.1.length = pairs.length ∧
      (filtRun f pairs).2.2.length = pairs.length := by
  intro pairs
  induction pairs with
  | nil => intro f; simp [filtRun]
  | cons p rest ih =>
    intro f
    obtain ⟨l, r⟩ := p
    simp [filtRun, ih]

/-- The compressor loop produces one output sample per input pair per
channel. -/
theorem compRun_length (cc : CompCoeffs) (powf : ℚ → ℚ → ℚ) (sqrtf : ℚ → ℚ)
    (slope : ℚ) :
    ∀ (pairs : List (ℚ × ℚ)) (s : CompState),
      (compRun cc powf sqrtf slope s pairs).2.1.length = pairs.length ∧
      (compRun cc powf sqrtf slope s pairs).2.2.length = pairs.length := by
  intro pairs
  induction pairs with
  | nil => intro s; simp [compRun]
  | cons p rest ih =>
    intro s
    obtain ⟨l, r⟩ := p
    simp [compRun, ih]

/-- Embedding of `UnknownFilter.process` preserves the zip length on both channels. -/
theorem filtProcess_length (f : FiltState) (L R : List ℚ) :
    (filtProcess f L R).2.1.length = (L.zip R).length ∧
    (filtProcess f L R).2.2.length = (L.zip R).length :=
  filtRun_length (L.zip R) f

/-- Embedding of `UnknownCompressor.process_block` preserves the zip length on both
channels. -/
theorem compProcess_length (cc : CompCoeffs) (powf : ℚ → ℚ → ℚ)
    (sqrtf : ℚ → ℚ) (s : CompState) (L R : List ℚ) :
    (compProcess cc powf sqrtf s L R).2.1.length = (L.zip R).length ∧
    (compProcess cc powf sqrtf s L R).2.2.length = (L.zip R).length :=
  compRun_length cc powf sqrtf (slopeOf s.ratio) (L.zip R) s

/-- On a nonempty left block `gainProcess` never fails, and its outputs have
the zip length. -/
theorem gainProcess_some_of_ne_nil (s : GainState) (L R : List ℚ)
    (cm : ℤ) (vn vb : ℚ) (hL : L ≠ []) :
    ∃ s' oL oR, gainProcess s L R cm vn vb = some (s', oL, oR) ∧
      oL.length = (L.zip R).length ∧ oR.length = (L.zip R).length := by
  have hn : L.length ≠ 0 := fun h => hL (List.length_eq_zero.mp h)
  set t := resolveTarget cm vn vb with ht
  have hsetup : ∃ s1, gainSetup s t L.length = some s1 := by
    unfold gainSetup
    by_cases h1 : s.initialized = false
    · rw [if_pos h1]; exact ⟨_, rfl⟩
    · rw [if_neg h1]
      by_cases h2 : |t - s.storedTargetGain| ≥ 1e-15
      · rw [if_pos h2, if_neg hn]; exact ⟨_, rfl⟩
      · rw [if_neg h2]; exact ⟨_, rfl⟩
  obtain ⟨s1, hs1⟩ := hsetup
  obtain ⟨hl1, hl2⟩ := gainLoop_length s1.rampStep s1.startGain t
    s1.meterCoeffL s1.meterCoeffR (L.zip R) 0
    (s1.currentGain, s1.meterStateL, s1.meterStateR)
  set res := gainLoop s1.rampStep s1.startGain t s1.meterCoeffL s1.meterCoeffR
    (L.zip R) 0 (s1.currentGain, s1.meterStateL, s1.meterStateR) with hres
  refine ⟨{ s1 with
      currentGain := res.2.2.1
      meterStateL := res.2.2.2.1
      meterStateR := res.2.2.2.2 }, res.1, res.2.1, ?_, hl1, hl2⟩
  simp only [gainProcess, ← ht, hs1]

/-- The high lane never fails on a nonempty block of parallel channels, and
its outputs have the block length. -/
theorem highLane_some (cc : CompCoeffs) (powf : ℚ → ℚ → ℚ) (sqrtf : ℚ → ℚ)
    (c : Clone) (L R : List ℚ) (hL : L ≠ []) (hlen : R.length = L.length) :
    ∃ high, highLane cc powf sqrtf c L R = some high ∧
      high.2.2.2.2.1.length = L.length ∧ high.2.2.2.2.2.length = L.length := by
  have hz : (L.zip R).length = L.length := by
    rw [List.length_zip, hlen, min_self]
  obtain ⟨hf1, hf2⟩ := filtProcess_length c.highFilter L R
  obtain ⟨hg1, hg2⟩ := compProcess_length cc powf sqrtf c.highGate
    (filtProcess c.highFilter L R).2.1 (filtProcess c.highFilter L R).2.2
  have hgz : ((filtProcess c.highFilter L R).2.1.zip
      (filtProcess c.highFilter L R).2.2).length = L.length := by
    rw [List.length_zip, hf1, hf2, hz, min_self]
  have hgate1 : (compProcess cc powf sqrtf c.highGate
      (filtProcess c.highFilter L R).2.1
      (filtProcess c.highFilter L R).2.2).2.1.length = L.length := by
    rw [hg1, hgz]
  have hgate2 : (compProcess cc powf sqrtf c.highGate
      (filtProcess c.highFilter L R).2.1
      (filtProcess c.highFilter L R).2.2).2.2.length = L.length := by
    rw [hg2, hgz]
  have hgne : (compProcess cc powf sqrtf c.highGate
      (filtProcess c.highFilter L R).2.1
      (filtProcess c.highFilter L R).2.2).2.1 ≠ [] := by
    intro hcontra
    have : L.length = 0 := by rw [← hgate1, hcontra]; rfl
    exact hL (List.length_eq_zero.mp this)
  obtain ⟨g', goL, goR, hgain, hlg1, hlg2⟩ := gainProcess_some_of_ne_nil
    c.highGain
    (compProcess cc powf sqrtf c.highGate
      (filtProcess c.highFilter L R).2.1 (filtProcess c.highFilter L R).2.2).2.1
    (compProcess cc powf sqrtf c.highGate
      (filtProcess c.highFilter L R).2.1 (filtProcess c.highFilter L R).2.2).2.2
    0 (1 + 0.8962 * powf c.knobHigh 0.8) 0 hgne
  have hgainz : ((compProcess cc powf sqrtf c.highGate
      (filtProcess c.highFilter L R).2.1
      (filtProcess c.highFilter L R).2.2).2.1.zip
      (compProcess cc powf sqrtf c.highGate
        (filtProcess c.highFilter L R).2.1
        (filtProcess c.highFilter L R).2.2).2.2).length = L.length := by
    rw [List.length_zip, hgate1, hgate2, min_self]
  obtain ⟨hlim1, hlim2⟩ := compProcess_length cc powf sqrtf c.highLimiter goL goR
  have hlimz : (goL.zip goR).length = L.length := by
    rw [List.length_zip, hlg1, hlg2, hgainz, min_self]
  refine ⟨((filtProcess c.highFilter L R).1,
    (compProcess cc powf sqrtf c.highGate
      (filtProcess c.highFilter L R).2.1 (filtProcess c.highFilter L R).2.2).1,
    g', (compProcess cc powf sqrtf c.highLimiter goL goR).1,
    (compProcess cc powf sqrtf c.highLimiter goL goR).2), ?_, ?_, ?_⟩
  · simp only [highLane, hgain]
  · rw [hlim1]; exact hlimz
  · rw [hlim2]; exact hlimz

/-- The mid lane's outputs have the block length. -/
theorem midLane_length (cc : CompCoeffs) (powf : ℚ → ℚ → ℚ) (sqrtf : ℚ → ℚ)
    (c : Clone) (L R : List ℚ) (hlen : R.length = L.length) :
    (midLane cc powf sqrtf c L R).2.2.1.length = L.length ∧
    (midLane cc powf sqrtf c L R).2.2.2.length = L.length := by
  have hz : (L.zip R).length = L.length := by
    rw [List.length_zip, hlen, min_self]
  obtain ⟨hf1, hf2⟩ := filtProcess_length c.midFilter L R
  obtain ⟨hc1, hc2⟩ := compProcess_length cc powf sqrtf c.midComp
    ((filtProcess c.midFilter L R).2.1.map
      fun s => s * (interpolateCurve MID_GAIN_CURVE c.knobMid - 0.05))
    ((filtProcess c.midFilter L R).2.2.map
      fun s => s * (interpolateCurve MID_GAIN_CURVE c.knobMid - 0.05))
  have hdz : (((filtProcess c.midFilter L R).2.1.map
      fun s => s * (interpolateCurve MID_GAIN_CURVE c.knobMid - 0.05)).zip
      ((filtProcess c.midFilter L R).2.2.map
        fun s => s * (interpolateCurve MID_GAIN_CURVE c.knobMid - 0.05))).length
      = L.length := by
    rw [List.length_zip, List.length_map, List.length_map, hf1, hf2, hz,
      min_self]
  constructor
  · simpa only [midLane, hc1] using hdz
  · simpa only [midLane, hc2] using hdz

/-- Core of the composite-process claim, on a nonempty block of parallel
channels: both lanes succeed, the sample-wise sum `dry + mid + high` is fed
through the trim stage with target `pow(10, trimDb/20)` and then the fixed
0.822 pad stage, and the composite returns exactly the pad stage's outputs,
of the same length as the input. -/
theorem cloneProcess_spec (cc : CompCoeffs) (powf : ℚ → ℚ → ℚ)
    (sqrtf : ℚ → ℚ) (c : Clone) (L R : List ℚ)
    (hL : L ≠ []) (hlen : R.length = L.length) :
    ∃ cl' oL oR high trim pad,
      highLane cc powf sqrtf c L R = some high ∧
      gainProcess c.trimGain
        (List.zipWith (· + ·) (List.zipWith (· + ·) L
          (midLane cc powf sqrtf c L R).2.2.1) high.2.2.2.2.1)
        (List.zipWith (· + ·) (List.zipWith (· + ·) R
          (midLane cc powf sqrtf c L R).2.2.2) high.2.2.2.2.2)
        0 (powf 10 (c.knobTrim / 20)) 0 = some trim ∧
      gainProcess c.staticPad trim.2.1 trim.2.2 0 0.822 0 = some pad ∧
      cloneProcess cc powf sqrtf c L R = some (cl', oL, oR) ∧
      oL = pad.2.1 ∧ oR = pad.2.2 ∧
      oL.length = L.length ∧ oR.length = R.length := by
  have hn : L.length ≠ 0 := fun h => hL (List.length_eq_zero.mp h)
  obtain ⟨hm1, hm2⟩ := midLane_length cc powf sqrtf c L R hlen
  obtain ⟨high, hhigh, hh1, hh2⟩ := highLane_some cc powf sqrtf c L R hL hlen
  have hsum1 : (List.zipWith (· + ·) (List.zipWith (· + ·) L
      (midLane cc powf sqrtf c L R).2.2.1) high.2.2.2.2.1).length = L.length := by
    rw [List.length_zipWith, List.length_zipWith, hm1, hh1, min_self, min_self]
  have hsum2 : (List.zipWith (· + ·) (List.zipWith (· + ·) R
      (midLane cc powf sqrtf c L R).2.2.2) high.2.2.2.2.2).length = L.length := by
    rw [List.length_zipWith, List.length_zipWith, hm2, hh2, hlen, min_self,
      min_self]
  have hsumne : (List.zipWith (· + ·) (List.zipWith (· + ·) L
      (midLane cc powf sqrtf c L R).2.2.1) high.2.2.2.2.1) ≠ [] := by
    intro hcontra
    have : L.length = 0 := by rw [← hsum1, hcontra]; rfl
    exact hn this
  obtain ⟨t', tL, tR, htrim, htl1, htl2⟩ := gainProcess_some_of_ne_nil
    c.trimGain
    (List.zipWith (· + ·) (List.zipWith (· + ·) L
      (midLane cc powf sqrtf c L R).2.2.1) high.2.2.2.2.1)
    (List.zipWith (· + ·) (List.zipWith (· + ·) R
      (midLane cc powf sqrtf c L R).2.2.2) high.2.2.2.2.2)
    0 (powf 10 (c.knobTrim / 20)) 0 hsumne
  have hsz : ((List.zipWith (· + ·) (List.zipWith (· + ·) L
      (midLane cc powf sqrtf c L R).2.2.1) high.2.2.2.2.1).zip
      (List.zipWith (· + ·) (List.zipWith (· + ·) R
        (midLane cc powf sqrtf c L R).2.2.2) high.2.2.2.2.2)).length
      = L.length := by
    rw [List.length_zip, hsum1, hsum2, min_self]
  have htL : tL.length = L.length := by rw [htl1, hsz]
  have htR : tR.length = L.length := by rw [htl2, hsz]
  have htne : tL ≠ [] := by
    intro hcontra
    have : L.length = 0 := by rw [← htL, hcontra]; rfl
    exact hn this
  obtain ⟨p', pL, pR, hpad, hpl1, hpl2⟩ := gainProcess_some_of_ne_nil
    c.staticPad tL tR 0 0.822 0 htne
  have htz : (tL.zip tR).length = L.length := by
    rw [List.length_zip, htL, htR, min_self]
  refine ⟨{ c with
      midFilter := (midLane cc powf sqrtf c L R).1
      midComp := (midLane cc powf sqrtf c L R).2.1
      highFilter := high.1
      highGate := high.2.1
      highGain := high.2.2.1
      highLimiter := high.2.2.2.1
      trimGain := t'
      staticPad := p' }, pL, pR, high, (t', tL, tR), (p', pL, pR),
    hhigh, htrim, hpad, ?_, rfl, rfl, ?_, ?_⟩
  · simp only [cloneProcess, hhigh, htrim, hpad]
  · rw [hpl1, htz]
  · rw [hpl2, htz, hlen]

/-- C6 (amended): for every NONEMPTY input block of parallel channels, the
composite process sums `dry + mid + high` sample-wise per channel, applies
the output-trim stage with target gain `pow(10, trimDb/20)` and the fixed
knob-independent 0.822 static-pad stage in series, and returns output
blocks of the same length as the input.  (As stated over all blocks the
claim fails: an empty block combined with a pending gain-stage target
change makes the ramp-setup division `1/blockSize` fail, see the
counterexample.) -/
theorem c6_composite_process (cc : CompCoeffs) (powf : ℚ → ℚ → ℚ)
    (sqrtf : ℚ → ℚ) (c : Clone) (L R : List ℚ)
    (hL : L ≠ []) (hlen : R.length = L.length) :
    ∃ cl' oL oR high trim pad,
      highLane cc powf sqrtf c L R = some high ∧
      gainProcess c.trimGain
        (List.zipWith (· + ·) (List.zipWith (· + ·) L
          (midLane cc powf sqrtf c L R).2.2.1) high.2.2.2.2.1)
        (List.zipWith (· + ·) (List.zipWith (· + ·) R
          (midLane cc powf sqrtf c L R).2.2.2) high.2.2.2.2.2)
        0 (powf 10 (c.knobTrim / 20)) 0 = some trim ∧
      gainProcess c.staticPad trim.2.1 trim.2.2 0 0.822 0 = some pad ∧
      cloneProcess cc powf sqrtf c L R = some (cl', oL, oR) ∧
      oL = pad.2.1 ∧ oR = pad.2.2 ∧
      oL.length = L.length ∧ oR.length = R.length :=
  cloneProcess_spec cc powf sqrtf c L R hL hlen

/-- Witness for C6 on the fresh composite and the one-sample block [0]. -/
theorem c6_composite_process_witness :
    (([(0 : ℚ)] : List ℚ) ≠ []) ∧
    ∃ cl' oL oR high trim pad,
      highLane probeCoeffs probePow probeSqrt cloneInit [0] [0] = some high ∧
      gainProcess cloneInit.trimGain
        (List.zipWith (· + ·) (List.zipWith (· + ·) [0]
          (midLane probeCoeffs probePow probeSqrt cloneInit [0] [0]).2.2.1)
          high.2.2.2.2.1)
        (List.zipWith (· + ·) (List.zipWith (· + ·) [0]
          (midLane probeCoeffs probePow probeSqrt cloneInit [0] [0]).2.2.2)
          high.2.2.2.2.2)
        0 (probePow 10 (cloneInit.knobTrim / 20)) 0 = some trim ∧
      gainProcess cloneInit.staticPad trim.2.1 trim.2.2 0 0.822 0 = some pad ∧
      cloneProcess probeCoeffs probePow probeSqrt cloneInit [0] [0] =
        some (cl', oL, oR) ∧
      oL = pad.2.1 ∧ oR = pad.2.2 ∧
      oL.length = ([(0 : ℚ)] : List ℚ).length ∧
      oR.length = ([(0 : ℚ)] : List ℚ).length :=
  ⟨by simp,
    c6_composite_process probeCoeffs probePow probeSqrt cloneInit [0] [0]
      (by simp) rfl⟩

/-- Counterexample for C6 as stated over ALL input blocks: process one
block through the fresh composite (succeeds), change the trim knob to 1 dB
via `set_parameters`, then process an empty block — the trim stage sees a
target change on a zero-length block and the composite call fails instead
of returning an empty output block. -/
theorem c6_counterexample :
    ((cloneProcess probeCoeffs probePow probeSqrt cloneInit [0] [0]).map
      (fun x => cloneProcess probeCoeffs probePow probeSqrt
        (setParameters x.1 0 0 1) [] [])) = some none := by
  have habs : |(1 : ℚ) / 2| = 1 / 2 := abs_of_pos (by norm_num)
  norm_num [cloneProcess, midLane, highLane, filtProcess, filtRun, filtStep,
    filtInv, filtDenom, compProcess, compRun, compStep, detector, peakLevel,
    targetGainLinear, slopeOf, gainProcess, gainSetup, gainLoop, resolveTarget,
    cloneInit, setParameters, interpolateCurve, interpSegments, lerp,
    MID_GAIN_CURVE, HIGH_LIMITER_THRESH_CURVE, HIGH_LIMITER_SHAPE_CURVE,
    MID_FILTER_COEFFS, HIGH_FILTER_COEFFS, filtInit, compInit, gainInit,
    EPSILON, probeCoeffs, probePow, probeSqrt, habs]

end FreshAir
